import Mathlib

/-!
Shallow embedding of the BinahSigma backend core (scoring engine, quality
validator, rate limiter / usage tracker, completion orchestrator, pipeline)
over exact rational arithmetic, with theorems checking the specification's
claims against the code.
-/

namespace BinahSigma

/-! ### Rounding

Python's builtin `round(x, n)` rounds half to even.  We model it over `ℚ`:
`rhe x` is the nearest integer to `x`, ties going to the even integer. -/

/-- Round half to even: the model of Python's builtin `round` to 0 digits. -/
def rhe (x : ℚ) : ℤ :=
  if x - Int.floor x < 1/2 then Int.floor x
  else if 1/2 < x - Int.floor x then Int.floor x + 1
  else if Int.floor x % 2 = 0 then Int.floor x else Int.floor x + 1

/-- Model of Python `round(x, 2)`. -/
def round2 (x : ℚ) : ℚ := (rhe (100 * x) : ℚ) / 100

/-- Model of Python `round(x, 3)`. -/
def round3 (x : ℚ) : ℚ := (rhe (1000 * x) : ℚ) / 1000

theorem rhe_intCast (n : ℤ) : rhe (n : ℚ) = n := by
  unfold rhe
  rw [Int.floor_intCast]
  norm_num

theorem rhe_le_of_le {x : ℚ} {n : ℤ} (h : x ≤ (n : ℚ)) : rhe x ≤ n := by
  unfold rhe
  have hfl : Int.floor x ≤ n := Int.floor_le_floor h |>.trans_eq (Int.floor_intCast n)
  split
  · exact hfl
  · -- in the remaining branches the fractional part is at least 1/2,
    -- so the floor is strictly below n and floor + 1 still fits
    rename_i h1
    push_neg at h1
    have hflt : Int.floor x < n := by
      by_contra hc
      push_neg at hc
      have hnq : (n : ℚ) ≤ (Int.floor x : ℚ) := by exact_mod_cast hc
      linarith
    split
    · omega
    · split <;> omega

theorem rhe_nonneg {x : ℚ} (h : 0 ≤ x) : 0 ≤ rhe x := by
  unfold rhe
  have hfl : (0 : ℤ) ≤ Int.floor x := Int.floor_nonneg.mpr h
  split
  · exact hfl
  · split
    · omega
    · split <;> omega

theorem round2_nonneg {x : ℚ} (h : 0 ≤ x) : 0 ≤ round2 x := by
  unfold round2
  have : (0 : ℤ) ≤ rhe (100 * x) := rhe_nonneg (by linarith)
  positivity

theorem round2_le_grid {x : ℚ} {n : ℤ} (h : x ≤ (n : ℚ) / 100) :
    round2 x ≤ (n : ℚ) / 100 := by
  unfold round2
  have h100 : 100 * x ≤ (n : ℚ) := by linarith
  have := rhe_le_of_le h100
  have : (rhe (100 * x) : ℚ) ≤ (n : ℚ) := by exact_mod_cast this
  linarith

theorem round2_grid (n : ℤ) : round2 ((n : ℚ) / 100) = (n : ℚ) / 100 := by
  unfold round2
  have h : (100 : ℚ) * ((n : ℚ) / 100) = (n : ℚ) := by ring
  rw [h, rhe_intCast]

/-! ### Scoring engine (`scoring_engine.py`)

`DecisionDimensions` carries three integer sub-scores and a categorical
ethical risk level; pydantic enforces the `0 ≤ score ≤ 100` bounds, which we
keep as the `Valid` predicate. -/

/-- The five ethical risk levels of `DecisionDimensions.ethical_risk_level`. -/
inductive RiskLevel
  | None
  | Low
  | Medium
  | High
  | Critical
deriving DecidableEq, Repr

/-- Embedding of the `DecisionDimensions` pydantic model. -/
structure DecisionDimensions where
  clarity_score : ℕ
  stakeholder_benefit_score : ℕ
  feasibility_score : ℕ
  ethical_risk_level : RiskLevel
deriving DecidableEq, Repr

/-- The pydantic field bounds (`ge=0` is automatic over `ℕ`). -/
def DecisionDimensions.Valid (d : DecisionDimensions) : Prop :=
  d.clarity_score ≤ 100 ∧ d.stakeholder_benefit_score ≤ 100 ∧
    d.feasibility_score ≤ 100

instance (d : DecisionDimensions) : Decidable d.Valid := by
  unfold DecisionDimensions.Valid; infer_instance

/-- One industry weight profile of `ScoringEngine.INDUSTRY_WEIGHTS`. -/
structure Weights where
  clarity : ℚ
  stakeholder : ℚ
  feasibility : ℚ
  ethics : ℚ
deriving DecidableEq, Repr

def generalWeights : Weights := ⟨20/100, 30/100, 30/100, 20/100⟩
def healthcareWeights : Weights := ⟨15/100, 25/100, 20/100, 40/100⟩
def financeWeights : Weights := ⟨25/100, 25/100, 35/100, 15/100⟩
def nonprofitWeights : Weights := ⟨15/100, 40/100, 15/100, 30/100⟩
def technologyWeights : Weights := ⟨25/100, 25/100, 35/100, 15/100⟩

/-- `INDUSTRY_WEIGHTS.get(industry, INDUSTRY_WEIGHTS["general"])` in
`ScoringEngine.__init__`: lookup over the five shipped profiles with
fallback to the general profile. -/
def weightsFor (industry : String) : Weights :=
  if industry = "general" then generalWeights
  else if industry = "healthcare" then healthcareWeights
  else if industry = "finance" then financeWeights
  else if industry = "nonprofit" then nonprofitWeights
  else if industry = "technology" then technologyWeights
  else generalWeights

/-- `self.ethical_penalties` in `ScoringEngine.__init__`. -/
def ethical_penalties : RiskLevel → ℚ
  | .None => 1
  | .Low => 90/100
  | .Medium => 60/100
  | .High => 30/100
  | .Critical => 0

/-- `self.ethical_caps` in `ScoringEngine.__init__`; risk levels outside the
dict carry no cap. -/
def ethical_caps : RiskLevel → Option ℚ
  | .Critical => some (40/100)
  | .High => some (60/100)
  | _ => Option.none

/-- Steps 1-3 of `ScoringEngine.calculate_index`: normalize scores to
[0,1], convert the risk level to a penalty multiplier, and take the
weighted sum. -/
def rawIndex (industry : String) (d : DecisionDimensions) : ℚ :=
  (d.clarity_score : ℚ) / 100 * (weightsFor industry).clarity +
    (d.stakeholder_benefit_score : ℚ) / 100 * (weightsFor industry).stakeholder +
    (d.feasibility_score : ℚ) / 100 * (weightsFor industry).feasibility +
    ethical_penalties d.ethical_risk_level * (weightsFor industry).ethics

/-- Step 4 of `ScoringEngine.calculate_index`: the ethical veto applied to
the weighted sum (after weighting, never before). -/
def cappedIndex (industry : String) (d : DecisionDimensions) : ℚ :=
  match ethical_caps d.ethical_risk_level with
  | some cap => min (rawIndex industry d) cap
  | Option.none => rawIndex industry d

/-- `ScoringEngine.calculate_index`: weighted sum, then the ethical veto
cap, then rounding to two decimals. -/
def calculate_index (industry : String) (d : DecisionDimensions) : ℚ :=
  round2 (cappedIndex industry d)

/-- `ScoringEngine.derive_coherence`. -/
def derive_coherence (index : ℚ) : String :=
  if 75/100 ≤ index then "High"
  else if 50/100 ≤ index then "Medium"
  else "Low"

/-- The numeric sub-score range (`max(scores) - min(scores)`) used by
`ScoringEngine.derive_confidence`. -/
def scoreRange (d : DecisionDimensions) : ℕ :=
  max (max d.clarity_score d.stakeholder_benefit_score) d.feasibility_score -
    min (min d.clarity_score d.stakeholder_benefit_score) d.feasibility_score

/-- `ScoringEngine.derive_confidence`: linear in the sub-score range,
floored at 0.5, rounded to two decimals. -/
def derive_confidence (d : DecisionDimensions) : ℚ :=
  round2 (max (1/2) (1 - (scoreRange d : ℚ) / 100))

/-- One entry of the `components` dict of `ScoringEngine.get_breakdown`. -/
structure ComponentLine where
  score : ℚ
  normalized : ℚ
  weight : ℚ
  contribution : ℚ
deriving DecidableEq, Repr

/-- The dict returned by `ScoringEngine.get_breakdown`. -/
structure Breakdown where
  clarity : ComponentLine
  stakeholder_benefit : ComponentLine
  feasibility : ComponentLine
  ethics_penalty_multiplier : ℚ
  ethics_weight : ℚ
  ethics_contribution : ℚ
  raw_index : ℚ
  ethical_cap_applied : Bool
  final_index : ℚ
  industry : String
deriving DecidableEq, Repr

/-- `ScoringEngine.get_breakdown`.  Note both the `raw_index` and the
`final_index` fields are produced by calling `calculate_index`. -/
def get_breakdown (industry : String) (d : DecisionDimensions) : Breakdown :=
  let w := weightsFor industry
  let s_clarity : ℚ := d.clarity_score / 100
  let s_benefit : ℚ := d.stakeholder_benefit_score / 100
  let s_feasibility : ℚ := d.feasibility_score / 100
  let s_ethics := ethical_penalties d.ethical_risk_level
  { clarity := ⟨d.clarity_score, s_clarity, w.clarity,
      round3 (s_clarity * w.clarity)⟩
    stakeholder_benefit := ⟨d.stakeholder_benefit_score, s_benefit,
      w.stakeholder, round3 (s_benefit * w.stakeholder)⟩
    feasibility := ⟨d.feasibility_score, s_feasibility, w.feasibility,
      round3 (s_feasibility * w.feasibility)⟩
    ethics_penalty_multiplier := s_ethics
    ethics_weight := w.ethics
    ethics_contribution := round3 (s_ethics * w.ethics)
    raw_index := calculate_index industry d
    ethical_cap_applied := (ethical_caps d.ethical_risk_level).isSome
    final_index := calculate_index industry d
    industry := industry }

/-! ### Quality validator (`quality_validator.py`)

Python string primitives (`in`, `.lower()`, `.strip()`, `len`) are embedded
as executable functions over the character list of a `String`. -/

/-- `needle` is a leading segment of `hay` (helper for substring search). -/
def leadsList : List Char → List Char → Bool
  | [], _ => true
  | _ :: _, [] => false
  | a :: as, b :: bs => a == b && leadsList as bs

/-- Occurrence of `needle` anywhere in `hay`: the Python `in` operator on
strings. -/
def containsList (needle : List Char) : List Char → Bool
  | [] => leadsList needle []
  | b :: bs => leadsList needle (b :: bs) || containsList needle bs

/-- Python `needle in hay` for strings. -/
def strContains (hay needle : String) : Bool :=
  containsList needle.data hay.data

/-- Python `s.lower()`. -/
def strLower (s : String) : String := String.mk (s.data.map Char.toLower)

/-- Python `s.strip()`. -/
def strStrip (s : String) : String :=
  String.mk (((s.data.dropWhile Char.isWhitespace).reverse.dropWhile
    Char.isWhitespace).reverse)

/-- Python `len(s)` (count of characters). -/
def strLen (s : String) : ℕ := s.data.length

/-- `QualityValidator.FORBIDDEN_GENERIC_PHRASES`. -/
def FORBIDDEN_GENERIC_PHRASES : List String :=
  ["it depends",
   "consider all options",
   "evaluate carefully",
   "there are pros and cons",
   "further analysis needed",
   "consult with experts",
   "more research required",
   "case by case basis",
   "depends on the situation",
   "various factors to consider"]

/-- `QualityValidator.PLACEHOLDER_VALUES`. -/
def PLACEHOLDER_VALUES : List String :=
  ["n/a", "none", "tbd", "todo", "placeholder", "unknown"]

def MIN_TENSIONS : ℕ := 3
def MIN_CONSEQUENCES : ℕ := 4
def MIN_RECOMMENDATION_LENGTH : ℕ := 50
def MIN_EXPLANATION_LENGTH : ℕ := 100
def MIN_ITEM_LENGTH : ℕ := 10

/-- Embedding of the `BinahSigmaResponse` schema (`schemas.py`), the fields
the core reads and writes. -/
structure BinahSigmaResponse where
  binah_sigma_index : ℚ
  binah_sigma_confidence : ℚ
  decision_coherence : String
  ethical_alignment : String
  systemic_risk : String
  key_tensions : List String
  unintended_consequences : List String
  binah_recommendation : String
  explanation_summary : String
  analysis_version : String
  dimensions : DecisionDimensions
deriving DecidableEq, Repr

/-- One entry of the `errors` list accumulated by
`QualityValidator.validate`, by source category. -/
inductive Violation
  | genericPhrase (phrase : String)
  | insufficientTensions (n : ℕ)
  | insufficientConsequences (n : ℕ)
  | recommendationTooShort (n : ℕ)
  | explanationTooShort (n : ℕ)
  | placeholderContent (item : String)
  | duplicateTensions
  | duplicateConsequences
  | tensionTooShort (t : String)
  | consequenceTooShort (c : String)
  | invalidIndex (x : ℚ)
  | invalidConfidence (x : ℚ)
deriving DecidableEq, Repr

/-- `QualityValidator.validate`: accumulates every violation, in source
order; the Python function raises `ValueError` exactly when this list is
nonempty. -/
def validate (r : BinahSigmaResponse) : List Violation :=
  -- 1. generic phrases in the recommendation
  (FORBIDDEN_GENERIC_PHRASES.filterMap fun phrase =>
    if strContains (strLower r.binah_recommendation) phrase then
      some (Violation.genericPhrase phrase)
    else Option.none) ++
  -- 2. minimum depth of analysis
  (if r.key_tensions.length < MIN_TENSIONS then
    [Violation.insufficientTensions r.key_tensions.length] else []) ++
  (if r.unintended_consequences.length < MIN_CONSEQUENCES then
    [Violation.insufficientConsequences r.unintended_consequences.length]
  else []) ++
  -- 3. recommendation length
  (if strLen r.binah_recommendation < MIN_RECOMMENDATION_LENGTH then
    [Violation.recommendationTooShort (strLen r.binah_recommendation)]
  else []) ++
  -- 4. explanation length
  (if strLen r.explanation_summary < MIN_EXPLANATION_LENGTH then
    [Violation.explanationTooShort (strLen r.explanation_summary)]
  else []) ++
  -- 5. placeholder or empty items across both lists
  ((r.key_tensions ++ r.unintended_consequences).filterMap fun item =>
    if strStrip (strLower item) ∈ PLACEHOLDER_VALUES ∨
        strStrip (strLower item) = "" then
      some (Violation.placeholderContent item)
    else Option.none) ++
  -- 6. duplicates (`len(xs) != len(set(xs))`)
  (if r.key_tensions.Nodup then [] else [Violation.duplicateTensions]) ++
  (if r.unintended_consequences.Nodup then []
  else [Violation.duplicateConsequences]) ++
  -- 7. too-short items (note: raw length, the item is NOT stripped here)
  (r.key_tensions.filterMap fun t =>
    if strLen t < MIN_ITEM_LENGTH then some (Violation.tensionTooShort t)
    else Option.none) ++
  (r.unintended_consequences.filterMap fun c =>
    if strLen c < MIN_ITEM_LENGTH then some (Violation.consequenceTooShort c)
    else Option.none) ++
  -- 8. index and confidence ranges
  (if 0 ≤ r.binah_sigma_index ∧ r.binah_sigma_index ≤ 1 then []
  else [Violation.invalidIndex r.binah_sigma_index]) ++
  (if 0 ≤ r.binah_sigma_confidence ∧ r.binah_sigma_confidence ≤ 1 then []
  else [Violation.invalidConfidence r.binah_sigma_confidence])

/-! ### Rate limiter and usage tracker (`rate_limiter.py`, `auth.py`)

`datetime.utcnow()` is embedded as an explicit `DateTime` value threaded
through every operation; `strftime` period keys become tuples of the
truncated fields.  Tier ceilings are `Option ℕ`, `Option.none` standing for
`float('inf')` (enterprise day/month), which no count ever reaches. -/

/-- The fields of a UTC datetime the rate limiter reads. -/
structure DateTime where
  year : ℕ
  month : ℕ
  day : ℕ
  hour : ℕ
  minute : ℕ
  second : ℕ
deriving DecidableEq, Repr

/-- The periods of `UsageTracker._get_period_key`. -/
inductive Period
  | minute
  | hour
  | day
  | month
deriving DecidableEq, Repr

/-- `UsageTracker._get_period_key`: the current time truncated to the
period's granularity (the `strftime` patterns keep exactly these fields). -/
def periodKey (now : DateTime) : Period → List ℕ
  | .minute => [now.year, now.month, now.day, now.hour, now.minute]
  | .hour => [now.year, now.month, now.day, now.hour]
  | .day => [now.year, now.month, now.day]
  | .month => [now.year, now.month]

/-- `UsageTracker` counters: `defaultdict(int)` keyed by
`f"{period}:{period_key}"` per customer. -/
structure UsageTracker where
  usage : String → Period → List ℕ → ℕ

/-- A fresh tracker: every bucket at zero. -/
def emptyTracker : UsageTracker := ⟨fun _ _ _ => 0⟩

/-- `UsageTracker.record_request`: increment the current minute, day and
month buckets of the customer. -/
def record_request (t : UsageTracker) (customer_id : String)
    (now : DateTime) : UsageTracker :=
  ⟨fun c p k =>
    if c = customer_id ∧ (p = .minute ∨ p = .day ∨ p = .month) ∧
        k = periodKey now p then
      t.usage c p k + 1
    else t.usage c p k⟩

/-- `UsageTracker.get_usage`: the current bucket's count (0 if absent). -/
def get_usage (t : UsageTracker) (customer_id : String) (period : Period)
    (now : DateTime) : ℕ :=
  t.usage customer_id period (periodKey now period)

/-- A tier ceiling: `Option.none` models `float('inf')`. -/
def demoLimits : String → Option ℕ := fun lt =>
  if lt = "requests_per_month" then some 3
  else if lt = "requests_per_day" then some 3
  else if lt = "requests_per_minute" then some 1
  else some 0

def startupLimits : String → Option ℕ := fun lt =>
  if lt = "requests_per_month" then some 100
  else if lt = "requests_per_day" then some 10
  else if lt = "requests_per_minute" then some 5
  else some 0

def professionalLimits : String → Option ℕ := fun lt =>
  if lt = "requests_per_month" then some 1000
  else if lt = "requests_per_day" then some 100
  else if lt = "requests_per_minute" then some 20
  else some 0

def enterpriseLimits : String → Option ℕ := fun lt =>
  if lt = "requests_per_month" then Option.none
  else if lt = "requests_per_day" then Option.none
  else if lt = "requests_per_minute" then some 100
  else some 0

/-- `TierLimits.get_limit`: tier lookup with fallback to the demo tier,
unknown limit types defaulting to 0. -/
def get_limit (tier limit_type : String) : Option ℕ :=
  if tier = "demo" then demoLimits limit_type
  else if tier = "startup" then startupLimits limit_type
  else if tier = "professional" then professionalLimits limit_type
  else if tier = "enterprise" then enterpriseLimits limit_type
  else demoLimits limit_type

/-- Python `current >= limit` with `limit` possibly `float('inf')`. -/
def atCeiling (current : ℕ) : Option ℕ → Bool
  | some l => decide (l ≤ current)
  | Option.none => false

/-- The `usage_info` dict assembled by `UsageTracker.check_limit`. -/
structure UsageInfo where
  minute : ℕ
  day : ℕ
  month : ℕ
  limit_minute : Option ℕ
  limit_day : Option ℕ
  limit_month : Option ℕ
deriving DecidableEq, Repr

def UsageInfo.usageOf (info : UsageInfo) : Period → ℕ
  | .minute => info.minute
  | .day => info.day
  | .month => info.month
  | .hour => 0

def UsageInfo.limitOf (info : UsageInfo) : Period → Option ℕ
  | .minute => info.limit_minute
  | .day => info.limit_day
  | .month => info.limit_month
  | .hour => some 0

/-- The `usage_info` snapshot for a customer and tier at the current time. -/
def mkUsageInfo (t : UsageTracker) (customer_id tier : String)
    (now : DateTime) : UsageInfo :=
  { minute := get_usage t customer_id .minute now
    day := get_usage t customer_id .day now
    month := get_usage t customer_id .month now
    limit_minute := get_limit tier "requests_per_minute"
    limit_day := get_limit tier "requests_per_day"
    limit_month := get_limit tier "requests_per_month" }

/-- The first period, in the order minute → day → month, whose count is at
or above its ceiling: the loop shared by `UsageTracker.check_limit` and
`RateLimiter.check_rate_limit`'s `exceeded_period` search. -/
def firstExceeded (info : UsageInfo) : Option Period :=
  if atCeiling info.minute info.limit_minute then some .minute
  else if atCeiling info.day info.limit_day then some .day
  else if atCeiling info.month info.limit_month then some .month
  else Option.none

/-- `UsageTracker.check_limit`: within-limit flag plus the snapshot. -/
def check_limit (t : UsageTracker) (customer_id tier : String)
    (now : DateTime) : Bool × UsageInfo :=
  let info := mkUsageInfo t customer_id tier now
  ((firstExceeded info).isNone, info)

def isLeapYear (y : ℕ) : Bool :=
  (y % 4 == 0 && y % 100 != 0) || y % 400 == 0

def daysInMonth (y m : ℕ) : ℕ :=
  if m = 2 then (if isLeapYear y then 29 else 28)
  else if m = 4 ∨ m = 6 ∨ m = 9 ∨ m = 11 then 30
  else 31

/-- `now.replace(second=0, microsecond=0) + timedelta(minutes=1)`. -/
def minuteReset (now : DateTime) : DateTime :=
  if now.minute + 1 < 60 then
    { now with minute := now.minute + 1, second := 0 }
  else if now.hour + 1 < 24 then
    { now with hour := now.hour + 1, minute := 0, second := 0 }
  else if now.day + 1 ≤ daysInMonth now.year now.month then
    { now with day := now.day + 1, hour := 0, minute := 0, second := 0 }
  else if now.month + 1 ≤ 12 then
    ⟨now.year, now.month + 1, 1, 0, 0, 0⟩
  else
    ⟨now.year + 1, 1, 1, 0, 0, 0⟩

/-- `now.replace(hour=0, ...) + timedelta(days=1)`. -/
def dayReset (now : DateTime) : DateTime :=
  if now.day + 1 ≤ daysInMonth now.year now.month then
    ⟨now.year, now.month, now.day + 1, 0, 0, 0⟩
  else if now.month + 1 ≤ 12 then
    ⟨now.year, now.month + 1, 1, 0, 0, 0⟩
  else
    ⟨now.year + 1, 1, 1, 0, 0, 0⟩

/-- The first moment of the next month (with year rollover). -/
def monthReset (now : DateTime) : DateTime :=
  if now.month = 12 then ⟨now.year + 1, 1, 1, 0, 0, 0⟩
  else ⟨now.year, now.month + 1, 1, 0, 0, 0⟩

/-- `now + timedelta(hours=1)` for the fallback branch of
`RateLimiter._get_reset_time`. -/
def hourLater (now : DateTime) : DateTime :=
  if now.hour + 1 < 24 then { now with hour := now.hour + 1 }
  else if now.day + 1 ≤ daysInMonth now.year now.month then
    { now with day := now.day + 1, hour := 0 }
  else if now.month + 1 ≤ 12 then
    { now with month := now.month + 1, day := 1, hour := 0 }
  else
    { now with year := now.year + 1, month := 1, day := 1, hour := 0 }

/-- `RateLimiter._get_reset_time`. -/
def get_reset_time (now : DateTime) : Period → DateTime
  | .minute => minuteReset now
  | .day => dayReset now
  | .month => monthReset now
  | .hour => hourLater now

/-- The `HTTPException(status_code=429, ...)` detail raised by
`RateLimiter.check_rate_limit`. -/
structure RateLimitError where
  period : Period
  current_usage : ℕ
  limit : Option ℕ
  tier : String
  reset : DateTime
deriving DecidableEq, Repr

/-- `RateLimiter.check_rate_limit`: admit with the usage snapshot, or
reject carrying the first exceeded period (in the order minute, day,
month), its count, its ceiling and its reset time. -/
def check_rate_limit (t : UsageTracker) (customer_id tier : String)
    (now : DateTime) : Except RateLimitError UsageInfo :=
  let info := mkUsageInfo t customer_id tier now
  match firstExceeded info with
  | Option.none => .ok info
  | some p =>
      .error ⟨p, info.usageOf p, info.limitOf p, tier, get_reset_time now p⟩

/-! ### Completion orchestrator (`llm_providers.py`)

For one request, each registered adapter's `complete` call is embedded as
its outcome: `.ok content` or `.error message` (any exception).  The
registry keeps the dict's insertion order as an association list, and
`fallback_order` is the list built alongside it in `_init_providers`. -/

/-- `LLMOrchestrator`: the provider registry (name ↦ this request's
outcome), the primary name, and the registration order. -/
structure LLMOrchestrator where
  providers : List (String × Except String String)
  primary_provider_name : String
  fallback_order : List String

/-- The provider order `LLMOrchestrator.complete` builds: the override
alone when it is registered, otherwise the primary followed by every other
registered provider in registration order. -/
def tryOrder (o : LLMOrchestrator) (provider : Option String) : List String :=
  match provider with
  | some p =>
      if (o.providers.lookup p).isSome then [p]
      else o.primary_provider_name ::
        o.fallback_order.filter (· ≠ o.primary_provider_name)
  | Option.none =>
      o.primary_provider_name ::
        o.fallback_order.filter (· ≠ o.primary_provider_name)

/-- The failover loop of `LLMOrchestrator.complete`: skip unregistered
names, return the first success together with the provider's name, record
the error of each failure, and when the order is exhausted raise the
aggregate failure carrying the last error (`Option.none` when no adapter
was even tried). -/
def tryProviders (ps : List (String × Except String String)) :
    List String → Option String → Except (Option String) (String × String)
  | [], last_error => .error last_error
  | name :: rest, last_error =>
      match ps.lookup name with
      | Option.none => tryProviders ps rest last_error
      | some (.ok content) => .ok (content, name)
      | some (.error e) => tryProviders ps rest (some e)

/-- `LLMOrchestrator.complete`: `(content, provider_used)` on success, the
aggregate `RuntimeError`'s last error on total failure. -/
def LLMOrchestrator.complete (o : LLMOrchestrator)
    (provider : Option String) : Except (Option String) (String × String) :=
  tryProviders o.providers (tryOrder o provider) Option.none

/-! ### Pipeline (`engine_v2.py`, `main_v2.py`)

`json.loads` plus the `DecisionDimensions(**...)` pydantic parse are
external to the core; they are embedded as an explicit `parse` argument
producing the fields `run_binah_sigma` reads from the parsed dict
(`Option.none` = the text was not valid JSON). -/

/-- The parsed LLM output dict as `run_binah_sigma` consumes it:
`dimensions` is `Option.none` when the block is missing (or fails the
pydantic field validation), the remaining fields default like
`parsed.get(...)`. -/
structure ParsedLLM where
  dimensions : Option DecisionDimensions
  ethical_alignment : Option String
  systemic_risk : Option String
  key_tensions : Option (List String)
  unintended_consequences : Option (List String)
  binah_recommendation : Option String
  explanation_summary : Option String
  analysis_version : Option String

/-- The failure modes of `run_binah_sigma`. -/
inductive EngineErr
  | allProvidersFailed (last_error : Option String)
  | invalidJSON
  | missingDimensions
  | qualityRejected (violations : List Violation)

/-- Step 4 + Step 5 of `run_binah_sigma`: deterministic scoring and the
assembly of `final_response` from the parsed dict. -/
def mkResponse (industry : String) (parsed : ParsedLLM)
    (dims : DecisionDimensions) : BinahSigmaResponse :=
  { binah_sigma_index := calculate_index industry dims
    binah_sigma_confidence := derive_confidence dims
    decision_coherence := derive_coherence (calculate_index industry dims)
    ethical_alignment := parsed.ethical_alignment.getD "Unknown"
    systemic_risk := parsed.systemic_risk.getD "Unknown"
    key_tensions := parsed.key_tensions.getD []
    unintended_consequences := parsed.unintended_consequences.getD []
    binah_recommendation := parsed.binah_recommendation.getD ""
    explanation_summary := parsed.explanation_summary.getD ""
    analysis_version := parsed.analysis_version.getD "v2.0"
    dimensions := dims }

/-- `run_binah_sigma` (`engine_v2.py`): orchestrated completion → JSON
parse → dimension extraction → deterministic scoring → response assembly →
quality gate.  Returns the assembled response and the provider used. -/
def run_binah_sigma (o : LLMOrchestrator)
    (parse : String → Option ParsedLLM) (provider : Option String)
    (industry : String) : Except EngineErr (BinahSigmaResponse × String) :=
  match o.complete provider with
  | .error last_error => .error (.allProvidersFailed last_error)
  | .ok (raw_content, provider_used) =>
    match parse raw_content with
    | Option.none => .error .invalidJSON
    | some parsed =>
      match parsed.dimensions with
      | Option.none => .error .missingDimensions
      | some dims =>
        match validate (mkResponse industry parsed dims) with
        | [] => .ok (mkResponse industry parsed dims, provider_used)
        | v :: vs => .error (.qualityRejected (v :: vs))

/-- The failure modes of `analyze_decision_v2` visible to the caller. -/
inductive AnalyzeError
  | rateLimited (e : RateLimitError)
  | engine (e : EngineErr)

/-- `analyze_decision_v2` (`main_v2.py`) acting on the usage tracker:
admission check strictly before the engine runs, `record_request` strictly
after the engine (quality gate included) succeeds.  Returns the outcome
together with the tracker state after the request. -/
def analyze_decision_v2 (t : UsageTracker) (o : LLMOrchestrator)
    (parse : String → Option ParsedLLM) (customer_id tier : String)
    (provider : Option String) (industry : String) (now : DateTime) :
    Except AnalyzeError (BinahSigmaResponse × String) × UsageTracker :=
  match check_rate_limit t customer_id tier now with
  | .error e => (.error (.rateLimited e), t)
  | .ok _usage_info =>
    match run_binah_sigma o parse provider industry with
    | .error e => (.error (.engine e), t)
    | .ok result => (.ok result, record_request t customer_id now)

/-! ### Concrete fixtures used by the theorems -/

/-- The healthcare example dimensions of the end-to-end spec property. -/
def c2dims : DecisionDimensions := ⟨80, 70, 60, .Low⟩

/-- A response meeting every quality rule: exactly 3 substantive tensions
and 4 substantive consequences. -/
def c8good : BinahSigmaResponse :=
  { binah_sigma_index := 1
    binah_sigma_confidence := 1
    decision_coherence := "High"
    ethical_alignment := "Aligned"
    systemic_risk := "Low"
    key_tensions :=
      ["Speed of delivery versus depth of testing",
       "Cost control versus long term maintainability",
       "Team autonomy versus architectural consistency"]
    unintended_consequences :=
      ["Increased technical debt in the data layer",
       "Higher onboarding cost for new engineers",
       "Reduced trust from the operations team",
       "Slower incident response during migration"]
    binah_recommendation :=
      "Adopt the phased rollout with explicit ownership of the migration backlog and weekly checkpoints."
    explanation_summary :=
      "The decision scores well because the problem is clearly framed, the migration is feasible with current staffing, and stakeholder benefits outweigh the transition costs."
    analysis_version := "v2.0"
    dimensions := ⟨80, 75, 70, .Low⟩ }

/-- Like `c8good` but with only 2 tensions. -/
def c8two : BinahSigmaResponse :=
  { c8good with key_tensions :=
      ["Speed of delivery versus depth of testing",
       "Cost control versus long term maintainability"] }

/-- Like `c8two` but additionally with a 22-character recommendation: two
violations in one response. -/
def c8multi : BinahSigmaResponse :=
  { c8two with binah_recommendation := "Do the phased rollout." }

/-- Like `c8good` but the first tension is 10 raw characters that strip
down to 6 ("padded" plus four trailing spaces). -/
def c6resp : BinahSigmaResponse :=
  { c8good with key_tensions :=
      ["padded    ",
       "Cost control versus long term maintainability",
       "Team autonomy versus architectural consistency"] }

/-- Like `c8good` but the first tension is 5 raw characters. -/
def c6shortResp : BinahSigmaResponse :=
  { c8good with key_tensions :=
      ["short",
       "Cost control versus long term maintainability",
       "Team autonomy versus architectural consistency"] }

/-- Orchestrator for this request with adapter A failing and adapter B
succeeding, primary A, registration order [A, B]. -/
def c3orch : LLMOrchestrator :=
  ⟨[("A", Except.error "A failed"), ("B", Except.ok "text from B")],
    "A", ["A", "B"]⟩

/-- Orchestrator for this request with both adapters failing. -/
def c3orchFail : LLMOrchestrator :=
  ⟨[("A", Except.error "first error"), ("B", Except.error "second error")],
    "A", ["A", "B"]⟩

/-- A fixed current time for the rate-limit scenario (second 0). -/
def c4now : DateTime := ⟨2025, 3, 15, 10, 30, 0⟩

/-- A later instant inside the same minute bucket (second 45). -/
def c4now2 : DateTime := ⟨2025, 3, 15, 10, 30, 45⟩

/-- A fixed current time for the pipeline scenario. -/
def c5now : DateTime := ⟨2025, 6, 1, 9, 0, 0⟩

/-- Single-provider orchestrator whose adapter returns `"raw"`. -/
def c5orch : LLMOrchestrator :=
  ⟨[("mistral", Except.ok "raw")], "mistral", ["mistral"]⟩

def c5dims : DecisionDimensions := ⟨80, 75, 70, .Low⟩

/-- Parsed LLM output with a complete, substantive analysis. -/
def c5parsed : ParsedLLM :=
  { dimensions := some c5dims
    ethical_alignment := some "Aligned"
    systemic_risk := some "Medium"
    key_tensions := some
      ["Speed of delivery versus depth of testing",
       "Cost control versus long term maintainability",
       "Team autonomy versus architectural consistency"]
    unintended_consequences := some
      ["Increased technical debt in the data layer",
       "Higher onboarding cost for new engineers",
       "Reduced trust from the operations team",
       "Slower incident response during migration"]
    binah_recommendation := some
      "Adopt the phased rollout with explicit ownership of the migration backlog and weekly checkpoints."
    explanation_summary := some
      "The decision scores well because the problem is clearly framed, the migration is feasible with current staffing, and stakeholder benefits outweigh the transition costs."
    analysis_version := some "v2.0" }

/-- A parse that always succeeds with `c5parsed` (valid JSON). -/
def c5parse : String → Option ParsedLLM := fun _ => some c5parsed

/-- A parse that always fails (the provider text was not valid JSON). -/
def c5parseBad : String → Option ParsedLLM := fun _ => Option.none

/-- The response the pipeline assembles in the success scenario. -/
def c5resp : BinahSigmaResponse := mkResponse "general" c5parsed c5dims

/-! ### Helper lemmas -/

/-- Weight profiles as shipped: non-negative entries summing to 1. -/
def GoodWeights (w : Weights) : Prop :=
  0 ≤ w.clarity ∧ 0 ≤ w.stakeholder ∧ 0 ≤ w.feasibility ∧ 0 ≤ w.ethics ∧
    w.clarity + w.stakeholder + w.feasibility + w.ethics = 1

theorem weightsFor_good (s : String) : GoodWeights (weightsFor s) := by
  unfold weightsFor
  repeat' split
  all_goals
    norm_num [GoodWeights, generalWeights, healthcareWeights, financeWeights,
      nonprofitWeights, technologyWeights]

theorem ethical_penalties_bounds (rl : RiskLevel) :
    0 ≤ ethical_penalties rl ∧ ethical_penalties rl ≤ 1 := by
  cases rl <;> norm_num [ethical_penalties]

theorem ethical_caps_bounds {rl : RiskLevel} {cap : ℚ}
    (h : ethical_caps rl = some cap) : 0 ≤ cap ∧ cap ≤ 1 := by
  cases rl <;> simp [ethical_caps] at h <;> rw [← h] <;> norm_num

theorem rawIndex_bounds (industry : String) (d : DecisionDimensions)
    (h : d.Valid) : 0 ≤ rawIndex industry d ∧ rawIndex industry d ≤ 1 := by
  obtain ⟨h1, h2, h3⟩ := h
  obtain ⟨w1, w2, w3, w4, wsum⟩ := weightsFor_good industry
  obtain ⟨p0, p1⟩ := ethical_penalties_bounds d.ethical_risk_level
  have hc : (d.clarity_score : ℚ) / 100 ≤ 1 := by
    rw [div_le_one (by norm_num)]; exact_mod_cast h1
  have hs : (d.stakeholder_benefit_score : ℚ) / 100 ≤ 1 := by
    rw [div_le_one (by norm_num)]; exact_mod_cast h2
  have hf : (d.feasibility_score : ℚ) / 100 ≤ 1 := by
    rw [div_le_one (by norm_num)]; exact_mod_cast h3
  unfold rawIndex
  constructor
  · have t1 : 0 ≤ (d.clarity_score : ℚ) / 100 * (weightsFor industry).clarity :=
      mul_nonneg (by positivity) w1
    have t2 : 0 ≤ (d.stakeholder_benefit_score : ℚ) / 100 *
        (weightsFor industry).stakeholder := mul_nonneg (by positivity) w2
    have t3 : 0 ≤ (d.feasibility_score : ℚ) / 100 *
        (weightsFor industry).feasibility := mul_nonneg (by positivity) w3
    have t4 : 0 ≤ ethical_penalties d.ethical_risk_level *
        (weightsFor industry).ethics := mul_nonneg p0 w4
    linarith
  · have u1 : (d.clarity_score : ℚ) / 100 * (weightsFor industry).clarity ≤
        (weightsFor industry).clarity := mul_le_of_le_one_left w1 hc
    have u2 : (d.stakeholder_benefit_score : ℚ) / 100 *
        (weightsFor industry).stakeholder ≤ (weightsFor industry).stakeholder :=
      mul_le_of_le_one_left w2 hs
    have u3 : (d.feasibility_score : ℚ) / 100 * (weightsFor industry).feasibility ≤
        (weightsFor industry).feasibility := mul_le_of_le_one_left w3 hf
    have u4 : ethical_penalties d.ethical_risk_level *
        (weightsFor industry).ethics ≤ (weightsFor industry).ethics :=
      mul_le_of_le_one_left w4 p1
    linarith

theorem cappedIndex_of_none (industry : String) (d : DecisionDimensions)
    (h : ethical_caps d.ethical_risk_level = Option.none) :
    cappedIndex industry d = rawIndex industry d := by
  unfold cappedIndex; rw [h]

theorem cappedIndex_of_some (industry : String) (d : DecisionDimensions)
    {cap : ℚ} (h : ethical_caps d.ethical_risk_level = some cap) :
    cappedIndex industry d = min (rawIndex industry d) cap := by
  unfold cappedIndex; rw [h]

theorem cappedIndex_bounds (industry : String) (d : DecisionDimensions)
    (h : d.Valid) : 0 ≤ cappedIndex industry d ∧ cappedIndex industry d ≤ 1 := by
  obtain ⟨hr0, hr1⟩ := rawIndex_bounds industry d h
  cases hcap : ethical_caps d.ethical_risk_level with
  | none => rw [cappedIndex_of_none industry d hcap]; exact ⟨hr0, hr1⟩
  | some cap =>
    obtain ⟨hc0, _⟩ := ethical_caps_bounds hcap
    rw [cappedIndex_of_some industry d hcap]
    exact ⟨le_min hr0 hc0, (min_le_left _ _).trans hr1⟩

theorem calculate_index_bounds (industry : String) (d : DecisionDimensions)
    (h : d.Valid) :
    0 ≤ calculate_index industry d ∧ calculate_index industry d ≤ 1 := by
  obtain ⟨hc0, hc1⟩ := cappedIndex_bounds industry d h
  refine ⟨round2_nonneg hc0, ?_⟩
  have hle : cappedIndex industry d ≤ ((100 : ℤ) : ℚ) / 100 := by
    push_cast; linarith
  have := round2_le_grid hle
  unfold calculate_index
  push_cast at this
  linarith

theorem calculate_index_le_cap (industry : String) (d : DecisionDimensions)
    {k : ℤ} (h : ethical_caps d.ethical_risk_level = some ((k : ℚ) / 100)) :
    calculate_index industry d ≤ (k : ℚ) / 100 := by
  unfold calculate_index
  rw [cappedIndex_of_some industry d h]
  exact round2_le_grid (min_le_right _ _)

/-- C1: for every valid `DecisionDimensions` and every industry profile,
`calculate_index` lies in [0,1]; a "Critical" ethical risk caps it at
0.40 and a "High" risk at 0.60; the veto cap is applied to the weighted
sum (after weighting) and the rounding to two decimals happens last. -/
theorem calculate_index_range_and_veto_caps (industry : String)
    (d : DecisionDimensions) (h : d.Valid) :
    0 ≤ calculate_index industry d ∧ calculate_index industry d ≤ 1 ∧
      (d.ethical_risk_level = .Critical →
        calculate_index industry d ≤ 40 / 100) ∧
      (d.ethical_risk_level = .High →
        calculate_index industry d ≤ 60 / 100) ∧
      calculate_index industry d = round2 (cappedIndex industry d) := by
  obtain ⟨h0, h1⟩ := calculate_index_bounds industry d h
  refine ⟨h0, h1, ?_, ?_, rfl⟩
  · intro hrl
    have hcap : ethical_caps d.ethical_risk_level = some (((40 : ℤ) : ℚ) / 100) := by
      rw [hrl]; norm_num [ethical_caps]
    have := calculate_index_le_cap industry d hcap
    push_cast at this
    linarith
  · intro hrl
    have hcap : ethical_caps d.ethical_risk_level = some (((60 : ℤ) : ℚ) / 100) := by
      rw [hrl]; norm_num [ethical_caps]
    have := calculate_index_le_cap industry d hcap
    push_cast at this
    linarith

/-- Witness for C1 at a concrete critical-risk input. -/
theorem calculate_index_range_and_veto_caps_witness :
    (⟨95, 95, 95, .Critical⟩ : DecisionDimensions).Valid ∧
      calculate_index "finance" ⟨95, 95, 95, .Critical⟩ ≤ 40 / 100 ∧
      0 ≤ calculate_index "finance" ⟨95, 95, 95, .Critical⟩ := by
  have h := calculate_index_range_and_veto_caps "finance"
    ⟨95, 95, 95, .Critical⟩ (by decide)
  exact ⟨by decide, h.2.2.1 rfl, h.1⟩

theorem c2raw_eq : rawIndex "healthcare" c2dims = 775 / 1000 := by
  unfold rawIndex
  rw [show weightsFor "healthcare" = healthcareWeights from rfl]
  norm_num [healthcareWeights, ethical_penalties, c2dims]

theorem c2calc_eq : calculate_index "healthcare" c2dims = 78 / 100 := by
  have hfloor : Int.floor ((155 : ℚ) / 2) = 77 := by
    rw [Int.floor_eq_iff]; norm_num
  unfold calculate_index
  rw [cappedIndex_of_none "healthcare" c2dims rfl, c2raw_eq]
  unfold round2
  rw [show (100 : ℚ) * (775 / 1000) = 155 / 2 by norm_num]
  unfold rhe
  rw [hfloor]
  norm_num

/-- C2 counterexample: with the healthcare weights and the example
dimensions the weighted sum is 0.775, not the 0.715 the claim computes,
and the derived coherence is "High", not "Medium". -/
theorem healthcare_example_as_claimed_false :
    rawIndex "healthcare" c2dims = 775 / 1000 ∧
      rawIndex "healthcare" c2dims ≠ 715 / 1000 ∧
      derive_coherence (calculate_index "healthcare" c2dims) = "High" ∧
      derive_coherence (calculate_index "healthcare" c2dims) ≠ "Medium" := by
  have hcoh : derive_coherence (calculate_index "healthcare" c2dims) = "High" := by
    rw [c2calc_eq]
    unfold derive_coherence
    rw [if_pos (by norm_num : (75 : ℚ) / 100 ≤ 78 / 100)]
  refine ⟨c2raw_eq, ?_, hcoh, ?_⟩
  · rw [c2raw_eq]; norm_num
  · rw [hcoh]; decide

/-- C2 amended: industry "healthcare" with dimensions clarity=80,
stakeholder_benefit=70, feasibility=60, ethical_risk="Low" uses weights
{0.15, 0.25, 0.20, 0.40}; the raw index is
0.15·0.80 + 0.25·0.70 + 0.20·0.60 + 0.40·0.90 = 0.775, the rounded index
is 0.78 and the derived coherence is "High". -/
theorem healthcare_example_corrected :
    weightsFor "healthcare" = ⟨15/100, 25/100, 20/100, 40/100⟩ ∧
      rawIndex "healthcare" c2dims = 775 / 1000 ∧
      calculate_index "healthcare" c2dims = 78 / 100 ∧
      derive_coherence (calculate_index "healthcare" c2dims) = "High" := by
  refine ⟨rfl, c2raw_eq, c2calc_eq, ?_⟩
  rw [c2calc_eq]
  unfold derive_coherence
  rw [if_pos (by norm_num : (75 : ℚ) / 100 ≤ 78 / 100)]

/-- C9: `derive_coherence x` is "High" iff x ≥ 0.75, "Medium" iff
0.50 ≤ x < 0.75, and "Low" iff x < 0.50 — the three cases are exhaustive
with no gaps. -/
theorem derive_coherence_cases (x : ℚ) :
    (derive_coherence x = "High" ↔ 75 / 100 ≤ x) ∧
      (derive_coherence x = "Medium" ↔ 50 / 100 ≤ x ∧ x < 75 / 100) ∧
      (derive_coherence x = "Low" ↔ x < 50 / 100) := by
  unfold derive_coherence
  rcases lt_or_le x (50 / 100 : ℚ) with hlow | hmid
  · have h1 : ¬ (75 / 100 : ℚ) ≤ x := by linarith
    have h2 : ¬ (50 / 100 : ℚ) ≤ x := not_le.mpr hlow
    rw [if_neg h1, if_neg h2]
    exact ⟨⟨fun hs => absurd hs (by decide), fun hge => absurd hge h1⟩,
      ⟨fun hs => absurd hs (by decide), fun hc => absurd hc.1 h2⟩,
      ⟨fun _ => hlow, fun _ => rfl⟩⟩
  · rcases lt_or_le x (75 / 100 : ℚ) with hmed | hhigh
    · have h1 : ¬ (75 / 100 : ℚ) ≤ x := not_le.mpr hmed
      rw [if_neg h1, if_pos hmid]
      exact ⟨⟨fun hs => absurd hs (by decide), fun hge => absurd hge h1⟩,
        ⟨fun _ => ⟨hmid, hmed⟩, fun _ => rfl⟩,
        ⟨fun hs => absurd hs (by decide),
          fun hlt => absurd hmid (not_le.mpr hlt)⟩⟩
    · rw [if_pos hhigh]
      exact ⟨⟨fun _ => hhigh, fun _ => rfl⟩,
        ⟨fun hs => absurd hs (by decide),
          fun hc => absurd hc.2 (not_lt.mpr hhigh)⟩,
        ⟨fun hs => absurd hs (by decide),
          fun hlt => absurd hhigh
            (not_le.mpr (hlt.trans_le (by norm_num)))⟩⟩

/-- C10: in `get_breakdown` the `raw_index` and `final_index` fields are
both the capped, rounded `calculate_index` value (the pre-cap weighted sum
is never exposed), and `ethical_cap_applied` is true exactly when the risk
level is "High" or "Critical". -/
theorem get_breakdown_consistency (industry : String)
    (d : DecisionDimensions) :
    (get_breakdown industry d).raw_index =
        (get_breakdown industry d).final_index ∧
      (get_breakdown industry d).final_index = calculate_index industry d ∧
      ((get_breakdown industry d).ethical_cap_applied = true ↔
        (d.ethical_risk_level = .High ∨ d.ethical_risk_level = .Critical)) := by
  refine ⟨rfl, rfl, ?_⟩
  have hrw : (get_breakdown industry d).ethical_cap_applied =
      (ethical_caps d.ethical_risk_level).isSome := rfl
  rw [hrw]
  cases d.ethical_risk_level <;> decide

theorem round2_max_grid (r : ℕ) :
    round2 (max (1/2) (1 - (r : ℚ) / 100)) = max (1/2) (1 - (r : ℚ) / 100) := by
  rcases max_cases (1/2 : ℚ) (1 - (r : ℚ) / 100) with ⟨heq, _⟩ | ⟨heq, _⟩ <;>
    rw [heq]
  · rw [show (1/2 : ℚ) = ((50 : ℤ) : ℚ) / 100 by norm_num]
    exact round2_grid 50
  · rw [show (1 : ℚ) - (r : ℚ) / 100 = ((100 - (r : ℤ) : ℤ) : ℚ) / 100 by
      push_cast; ring]
    exact round2_grid (100 - (r : ℤ))

/-- C7: `derive_confidence` depends only on the three numeric sub-scores,
equals the linear map of their range floored at 0.5 (the two-decimal
rounding is the identity on its values), sends range 0 to 1.0 and range
100 to the floor 0.5, is monotonically non-increasing in the range, and
never goes below 0.5. -/
theorem derive_confidence_properties :
    (∀ d e : DecisionDimensions, d.clarity_score = e.clarity_score →
      d.stakeholder_benefit_score = e.stakeholder_benefit_score →
      d.feasibility_score = e.feasibility_score →
      derive_confidence d = derive_confidence e) ∧
    (∀ d : DecisionDimensions,
      derive_confidence d = max (1/2) (1 - (scoreRange d : ℚ) / 100)) ∧
    (∀ d : DecisionDimensions, scoreRange d = 0 → derive_confidence d = 1) ∧
    (∀ d : DecisionDimensions, scoreRange d = 100 →
      derive_confidence d = 1/2) ∧
    (∀ d e : DecisionDimensions, scoreRange d ≤ scoreRange e →
      derive_confidence e ≤ derive_confidence d) ∧
    (∀ d : DecisionDimensions, 1/2 ≤ derive_confidence d) := by
  have hkey : ∀ d : DecisionDimensions,
      derive_confidence d = max (1/2) (1 - (scoreRange d : ℚ) / 100) :=
    fun d => round2_max_grid (scoreRange d)
  refine ⟨?_, hkey, ?_, ?_, ?_, ?_⟩
  · intro d e h1 h2 h3
    unfold derive_confidence scoreRange
    rw [h1, h2, h3]
  · intro d h
    rw [hkey d, h]
    rw [show (1 : ℚ) - ((0 : ℕ) : ℚ) / 100 = 1 by norm_num]
    exact max_eq_right (by norm_num)
  · intro d h
    rw [hkey d, h]
    rw [show (1 : ℚ) - ((100 : ℕ) : ℚ) / 100 = 0 by norm_num]
    exact max_eq_left (by norm_num)
  · intro d e hle
    rw [hkey d, hkey e]
    have hc : ((scoreRange d : ℕ) : ℚ) ≤ ((scoreRange e : ℕ) : ℚ) := by
      exact_mod_cast hle
    exact max_le_max le_rfl (by linarith)
  · intro d
    rw [hkey d]
    exact le_max_left _ _

/-- Witness for C7 at concrete ranges 0 and 100. -/
theorem derive_confidence_properties_witness :
    scoreRange ⟨50, 50, 50, .None⟩ = 0 ∧
      derive_confidence ⟨50, 50, 50, .None⟩ = 1 ∧
      scoreRange ⟨0, 100, 50, .Low⟩ = 100 ∧
      derive_confidence ⟨0, 100, 50, .Low⟩ = 1/2 ∧
      derive_confidence ⟨0, 100, 50, .Low⟩ ≤
        derive_confidence ⟨50, 50, 50, .None⟩ :=
  ⟨by decide, derive_confidence_properties.2.2.1 _ (by decide),
    by decide, derive_confidence_properties.2.2.2.1 _ (by decide),
    derive_confidence_properties.2.2.2.2.1 _ _ (by decide)⟩

set_option maxRecDepth 40000 in
/-- C8: `validate` accumulates every violation and reports them together
(two flaws give a two-element violation list); it rejects a response with
exactly 2 tensions and accepts one with exactly 3 substantive,
non-duplicate, non-placeholder tensions. -/
theorem validate_accumulates_and_thresholds :
    validate c8two = [Violation.insufficientTensions 2] ∧
      validate c8multi =
        [Violation.insufficientTensions 2,
          Violation.recommendationTooShort 22] ∧
      validate c8good = [] := by
  refine ⟨?_, ?_, ?_⟩
  · unfold validate
    rw [if_pos (by norm_num [c8two, c8good] :
      0 ≤ c8two.binah_sigma_index ∧ c8two.binah_sigma_index ≤ 1)]
    rw [if_pos (by norm_num [c8two, c8good] :
      0 ≤ c8two.binah_sigma_confidence ∧ c8two.binah_sigma_confidence ≤ 1)]
    decide
  · unfold validate
    rw [if_pos (by norm_num [c8multi, c8two, c8good] :
      0 ≤ c8multi.binah_sigma_index ∧ c8multi.binah_sigma_index ≤ 1)]
    rw [if_pos (by norm_num [c8multi, c8two, c8good] :
      0 ≤ c8multi.binah_sigma_confidence ∧
        c8multi.binah_sigma_confidence ≤ 1)]
    decide
  · unfold validate
    rw [if_pos (by norm_num [c8good] :
      0 ≤ c8good.binah_sigma_index ∧ c8good.binah_sigma_index ≤ 1)]
    rw [if_pos (by norm_num [c8good] :
      0 ≤ c8good.binah_sigma_confidence ∧ c8good.binah_sigma_confidence ≤ 1)]
    decide

set_option maxRecDepth 40000 in
/-- C6 counterexample: a tension of 10 raw characters that strips down to
6 characters produces no violation at all — `validate` measures the raw,
untrimmed length. -/
theorem validate_trimmed_short_counterexample :
    "padded    " ∈ c6resp.key_tensions ∧
      strLen (strStrip "padded    ") < MIN_ITEM_LENGTH ∧
      validate c6resp = [] := by
  refine ⟨by decide, by decide, ?_⟩
  unfold validate
  rw [if_pos (by norm_num [c6resp, c8good] :
    0 ≤ c6resp.binah_sigma_index ∧ c6resp.binah_sigma_index ≤ 1)]
  rw [if_pos (by norm_num [c6resp, c8good] :
    0 ≤ c6resp.binah_sigma_confidence ∧ c6resp.binah_sigma_confidence ≤ 1)]
  decide

/-- C6 amended: `validate` reports a too-short violation for every tension
or consequence entry whose RAW (untrimmed) length is below 10 characters,
and such a response always fails validation. -/
theorem validate_flags_short_items (r : BinahSigmaResponse) (item : String)
    (h : item ∈ r.key_tensions ++ r.unintended_consequences)
    (hshort : strLen item < MIN_ITEM_LENGTH) :
    validate r ≠ [] ∧
      (Violation.tensionTooShort item ∈ validate r ∨
        Violation.consequenceTooShort item ∈ validate r) := by
  have hmem : Violation.tensionTooShort item ∈ validate r ∨
      Violation.consequenceTooShort item ∈ validate r := by
    rcases List.mem_append.mp h with ht | hc
    · left
      unfold validate
      apply List.mem_append_left
      apply List.mem_append_left
      apply List.mem_append_left
      apply List.mem_append_right
      exact List.mem_filterMap.mpr ⟨item, ht, by rw [if_pos hshort]⟩
    · right
      unfold validate
      apply List.mem_append_left
      apply List.mem_append_left
      apply List.mem_append_right
      exact List.mem_filterMap.mpr ⟨item, hc, by rw [if_pos hshort]⟩
  refine ⟨?_, hmem⟩
  rcases hmem with h' | h' <;> exact List.ne_nil_of_mem h'

/-- Witness for the amended C6 at a concrete 5-character tension. -/
theorem validate_flags_short_items_witness :
    ("short" ∈ c6shortResp.key_tensions ++
        c6shortResp.unintended_consequences) ∧
      strLen "short" < MIN_ITEM_LENGTH ∧
      (validate c6shortResp ≠ [] ∧
        (Violation.tensionTooShort "short" ∈ validate c6shortResp ∨
          Violation.consequenceTooShort "short" ∈ validate c6shortResp)) :=
  ⟨by decide, by decide,
    validate_flags_short_items c6shortResp "short" (by decide) (by decide)⟩

/-- C4: a "demo" tier customer (ceilings 1/minute, 3/day, 3/month) is
admitted on the first call and rejected on a second call inside the same
minute bucket; the rejection carries period "minute", the current count,
the ceiling and the computed reset time; in general the reported period is
the first exceeded one in the order minute, day, month. -/
theorem demo_rate_limit_behaviour :
    get_limit "demo" "requests_per_minute" = some 1 ∧
      get_limit "demo" "requests_per_day" = some 3 ∧
      get_limit "demo" "requests_per_month" = some 3 ∧
      check_rate_limit emptyTracker "demo_user" "demo" c4now =
        .ok (mkUsageInfo emptyTracker "demo_user" "demo" c4now) ∧
      check_rate_limit (record_request emptyTracker "demo_user" c4now)
          "demo_user" "demo" c4now2 =
        .error ⟨.minute, 1, some 1, "demo", ⟨2025, 3, 15, 10, 31, 0⟩⟩ ∧
      (∀ (t : UsageTracker) (c tier : String) (now : DateTime),
        (match check_rate_limit t c tier now with
          | .error err => some err.period
          | .ok _ => Option.none) =
          firstExceeded (mkUsageInfo t c tier now)) := by
  refine ⟨rfl, rfl, rfl, rfl, rfl, ?_⟩
  intro t c tier now
  cases h : firstExceeded (mkUsageInfo t c tier now) with
  | none => simp only [check_rate_limit, h]
  | some p => simp only [check_rate_limit, h]

theorem tryProviders_all_fail (ps : List (String × Except String String))
    (e : String) :
    ∀ (order : List String) (le : Option String),
      (∀ n ∈ order, ∃ msg, ps.lookup n = some (Except.error msg)) →
      (∀ h : order ≠ [], ps.lookup (order.getLast h) =
        some (Except.error e)) →
      (order = [] → le = some e) →
      tryProviders ps order le = .error (some e) := by
  intro order
  induction order with
  | nil =>
    intro le _ _ hemp
    rw [hemp rfl]
    rfl
  | cons n rest ih =>
    intro le hall hlast _
    obtain ⟨msg, hmsg⟩ := hall n (List.mem_cons_self n rest)
    show tryProviders ps (n :: rest) le = .error (some e)
    rw [tryProviders, hmsg]
    cases rest with
    | nil =>
      have h1 := hlast (List.cons_ne_nil n [])
      rw [List.getLast_singleton'] at h1
      rw [hmsg] at h1
      have h2 : Except.error (ε := String) (α := String) msg =
          Except.error e := by
        exact Option.some.inj h1
      have h3 : msg = e := by
        injection h2
      rw [h3]
      rfl
    | cons r rs =>
      apply ih (some msg)
      · intro m hm
        exact hall m (List.mem_cons_of_mem n hm)
      · intro h
        have h1 := hlast (List.cons_ne_nil n (r :: rs))
        rwa [List.getLast_cons h] at h1
      · intro habs
        exact absurd habs (List.cons_ne_nil r rs)

/-- C3: with no override the orchestrator tries the primary first and then
every other registered adapter in registration order, each exactly once;
with adapters [A (fails), B (succeeds)] it returns B's text and provider
name "B"; when every adapter in the order fails it raises the aggregate
failure carrying the last error. -/
theorem orchestrator_failover (o : LLMOrchestrator)
    (hnd : o.fallback_order.Nodup)
    (hp : o.primary_provider_name ∈ o.fallback_order) :
    tryOrder o Option.none = o.primary_provider_name ::
        o.fallback_order.filter (· ≠ o.primary_provider_name) ∧
      (tryOrder o Option.none).Nodup ∧
      (∀ p, p ∈ tryOrder o Option.none ↔ p ∈ o.fallback_order) ∧
      LLMOrchestrator.complete c3orch Option.none =
        .ok ("text from B", "B") ∧
      (∀ (e : String),
        (∀ n ∈ tryOrder o Option.none,
          ∃ msg, o.providers.lookup n = some (Except.error msg)) →
        (∀ h : tryOrder o Option.none ≠ [],
          o.providers.lookup ((tryOrder o Option.none).getLast h) =
            some (Except.error e)) →
        o.complete Option.none = .error (some e)) := by
  refine ⟨rfl, ?_, ?_, rfl, ?_⟩
  · refine List.Nodup.cons ?_ (hnd.filter _)
    intro hmem
    have := List.mem_filter.mp hmem
    simp at this
  · intro p
    constructor
    · intro hmem
      rcases List.mem_cons.mp hmem with h | h
      · exact h ▸ hp
      · exact (List.mem_filter.mp h).1
    · intro hmem
      by_cases hpe : p = o.primary_provider_name
      · exact hpe ▸ List.mem_cons_self _ _
      · exact List.mem_cons_of_mem _
          (List.mem_filter.mpr ⟨hmem, by simpa using hpe⟩)
  · intro e hall hlast
    exact tryProviders_all_fail o.providers e (tryOrder o Option.none)
      Option.none hall hlast
      (fun h => absurd h (List.cons_ne_nil _ _))

/-- Witness for C3 on the concrete two-adapter orchestrators. -/
theorem orchestrator_failover_witness :
    (tryOrder c3orch Option.none).Nodup ∧
      (∀ p, p ∈ tryOrder c3orch Option.none ↔
        p ∈ c3orch.fallback_order) ∧
      c3orchFail.complete Option.none = .error (some "second error") := by
  refine ⟨(orchestrator_failover c3orch (by decide) (by decide)).2.1,
    (orchestrator_failover c3orch (by decide) (by decide)).2.2.1, ?_⟩
  apply (orchestrator_failover c3orchFail (by decide) (by decide)).2.2.2.2
    "second error"
  · intro n hn
    fin_cases hn
    · exact ⟨"first error", rfl⟩
    · exact ⟨"second error", rfl⟩
  · intro h
    rfl

theorem derive_confidence_bounds (d : DecisionDimensions) :
    1/2 ≤ derive_confidence d ∧ derive_confidence d ≤ 1 := by
  unfold derive_confidence
  rw [round2_max_grid (scoreRange d)]
  constructor
  · exact le_max_left _ _
  · apply max_le (by norm_num)
    have h : (0 : ℚ) ≤ (scoreRange d : ℚ) := by positivity
    linarith

theorem get_usage_record_same (t : UsageTracker) (c : String)
    (now : DateTime) (p : Period)
    (hp : p = .minute ∨ p = .day ∨ p = .month) :
    get_usage (record_request t c now) c p now = get_usage t c p now + 1 := by
  unfold get_usage record_request
  dsimp only
  rw [if_pos ⟨rfl, hp, rfl⟩]

theorem run_binah_sigma_ok (o : LLMOrchestrator)
    (parse : String → Option ParsedLLM) (provider : Option String)
    (industry raw used : String) (parsed : ParsedLLM)
    (dims : DecisionDimensions)
    (h1 : o.complete provider = .ok (raw, used))
    (h2 : parse raw = some parsed)
    (h3 : parsed.dimensions = some dims)
    (h4 : validate (mkResponse industry parsed dims) = []) :
    run_binah_sigma o parse provider industry =
      .ok (mkResponse industry parsed dims, used) := by
  unfold run_binah_sigma
  rw [h1]
  dsimp only
  rw [h2]
  dsimp only
  rw [h3]
  dsimp only
  rw [h4]

set_option maxRecDepth 40000 in
theorem c5validate : validate c5resp = [] := by
  unfold validate
  rw [if_pos (show 0 ≤ c5resp.binah_sigma_index ∧
      c5resp.binah_sigma_index ≤ 1 from
    calculate_index_bounds "general" c5dims (by decide))]
  rw [if_pos (show 0 ≤ c5resp.binah_sigma_confidence ∧
      c5resp.binah_sigma_confidence ≤ 1 from by
    have h := derive_confidence_bounds c5dims
    exact ⟨le_trans (by norm_num) h.1, h.2⟩)]
  decide

theorem c5run : run_binah_sigma c5orch c5parse Option.none "general" =
    .ok (c5resp, "mistral") :=
  run_binah_sigma_ok c5orch c5parse Option.none "general" "raw" "mistral"
    c5parsed c5dims rfl rfl rfl c5validate

theorem c5analyze_ok :
    (analyze_decision_v2 emptyTracker c5orch c5parse "cust" "startup"
        Option.none "general" c5now).1 = .ok (c5resp, "mistral") := by
  unfold analyze_decision_v2
  rw [show check_rate_limit emptyTracker "cust" "startup" c5now =
    .ok (mkUsageInfo emptyTracker "cust" "startup" c5now) from rfl]
  dsimp only
  rw [c5run]

/-- C5: usage is recorded only after the quality gate passes — whenever
the engine fails (providers exhausted, invalid JSON, missing dimensions,
or quality rejection) or the request is rate-limited, the tracker is
unchanged; on an end-to-end success the three period counters of the
customer are each incremented exactly once. -/
theorem usage_recorded_only_after_quality (t : UsageTracker)
    (o : LLMOrchestrator) (parse : String → Option ParsedLLM)
    (customer_id tier : String) (provider : Option String)
    (industry : String) (now : DateTime) :
    (∀ err,
      (analyze_decision_v2 t o parse customer_id tier provider industry
          now).1 = .error err →
      (analyze_decision_v2 t o parse customer_id tier provider industry
          now).2 = t) ∧
    (∀ e, run_binah_sigma o parse provider industry = .error e →
      (analyze_decision_v2 t o parse customer_id tier provider industry
          now).2 = t) ∧
    (∀ result,
      (analyze_decision_v2 t o parse customer_id tier provider industry
          now).1 = .ok result →
      (analyze_decision_v2 t o parse customer_id tier provider industry
          now).2 = record_request t customer_id now ∧
      get_usage (analyze_decision_v2 t o parse customer_id tier provider
          industry now).2 customer_id .minute now =
        get_usage t customer_id .minute now + 1 ∧
      get_usage (analyze_decision_v2 t o parse customer_id tier provider
          industry now).2 customer_id .day now =
        get_usage t customer_id .day now + 1 ∧
      get_usage (analyze_decision_v2 t o parse customer_id tier provider
          industry now).2 customer_id .month now =
        get_usage t customer_id .month now + 1) := by
  cases hcr : check_rate_limit t customer_id tier now with
  | error e =>
    have hana : analyze_decision_v2 t o parse customer_id tier provider
        industry now = (.error (.rateLimited e), t) := by
      unfold analyze_decision_v2
      rw [hcr]
    refine ⟨fun err _ => by rw [hana], fun e2 _ => by rw [hana],
      fun result hres => ?_⟩
    rw [hana] at hres
    exact Except.noConfusion hres
  | ok info =>
    cases hrun : run_binah_sigma o parse provider industry with
    | error e2 =>
      have hana : analyze_decision_v2 t o parse customer_id tier provider
          industry now = (.error (.engine e2), t) := by
        unfold analyze_decision_v2
        rw [hcr]
        dsimp only
        rw [hrun]
      refine ⟨fun err _ => by rw [hana], fun e3 _ => by rw [hana],
        fun result hres => ?_⟩
      rw [hana] at hres
      exact Except.noConfusion hres
    | ok result =>
      have hana : analyze_decision_v2 t o parse customer_id tier provider
          industry now = (.ok result, record_request t customer_id now) := by
        unfold analyze_decision_v2
        rw [hcr]
        dsimp only
        rw [hrun]
      refine ⟨fun err herr => ?_, fun e3 he => ?_, fun r _ => ?_⟩
      · rw [hana] at herr
        exact Except.noConfusion herr
      · exact Except.noConfusion he
      · rw [hana]
        exact ⟨rfl,
          get_usage_record_same t customer_id now .minute (Or.inl rfl),
          get_usage_record_same t customer_id now .day (Or.inr (Or.inl rfl)),
          get_usage_record_same t customer_id now .month
            (Or.inr (Or.inr rfl))⟩

/-- Witness for C5: a failed parse leaves the tracker untouched and a
successful end-to-end request increments the minute counter. -/
theorem usage_recorded_only_after_quality_witness :
    (analyze_decision_v2 emptyTracker c5orch c5parseBad "cust" "startup"
        Option.none "general" c5now).2 = emptyTracker ∧
      get_usage (analyze_decision_v2 emptyTracker c5orch c5parse "cust"
          "startup" Option.none "general" c5now).2 "cust" Period.minute
          c5now =
        get_usage emptyTracker "cust" Period.minute c5now + 1 := by
  constructor
  · exact (usage_recorded_only_after_quality emptyTracker c5orch c5parseBad
      "cust" "startup" Option.none "general" c5now).2.1
      EngineErr.invalidJSON rfl
  · exact ((usage_recorded_only_after_quality emptyTracker c5orch c5parse
      "cust" "startup" Option.none "general" c5now).2.2
      (c5resp, "mistral") c5analyze_ok).2.1

end BinahSigma
